import Mathlib

/-!
Shallow embedding of `src/main.rs` of the `nerf` command-line tool.

Strings are modelled as `List Char`.  The program's pure data flow is
embedded directly; the effectful boundaries (environment lookup, file
read, HTTP transport, clipboard process) are modelled as explicit inputs
collected in a `World` record, and the HTTP requests the program issues
are collected in a trace list.
-/

/-- Boolean head-match test: `matchHead pat s = true` iff `s` starts with
`pat`.  This is the per-position match used by Rust's `str::replace`
(via `match_indices`) in `main.rs` line 69. -/
def matchHead : List Char → List Char → Bool
  | [], _ => true
  | _ :: _, [] => false
  | p :: ps, c :: cs => if p = c then matchHead ps cs else false

/-- Boolean occurrence test: `occursIn pat s = true` iff `pat` occurs as a
contiguous run somewhere in `s` (for the empty pattern it is always
`true`, matching Rust's empty-pattern semantics). -/
def occursIn (pat : List Char) : List Char → Bool
  | [] => pat.isEmpty
  | c :: cs => matchHead pat (c :: cs) || occursIn pat cs

/-- Join a list of pieces with a separator between consecutive pieces.
This is the semantics of Rust's `[String]::join` used for
`cli.words.join(" ")` in `main.rs` line 63, and it also serves to state
the decomposition produced by `str::replace`. -/
def joinWith (sep : List Char) : List (List Char) → List Char
  | [] => []
  | [p] => p
  | p :: q :: ps => p ++ sep ++ joinWith sep (q :: ps)

/-- Fuel-indexed worker for `listReplace`.  One unit of fuel is spent per
character position scanned, so `fuel = s.length` always suffices.
Semantics follow Rust's `str::replace(from, to)`: scan left to right,
at each position replace the leftmost non-overlapping match of `pat`
with `rep` and continue after it; the empty pattern matches at every
character boundary including both ends. -/
def listReplaceFuel (pat rep : List Char) : Nat → List Char → List Char
  | _, [] => if pat = [] then rep else []
  | 0, s => s
  | fuel + 1, c :: cs =>
    if pat = [] then rep ++ c :: listReplaceFuel pat rep fuel cs
    else if matchHead pat (c :: cs) then
      rep ++ listReplaceFuel pat rep fuel ((c :: cs).drop pat.length)
    else c :: listReplaceFuel pat rep fuel cs

/-- Embedding of Rust's `s.replace(pat, rep)` (`main.rs` line 69):
`listReplace pat rep s` is `s` with every leftmost non-overlapping
occurrence of `pat` replaced by `rep`. -/
def listReplace (pat rep s : List Char) : List Char :=
  listReplaceFuel pat rep s.length s

/-- The literal placeholder token of `main.rs` line 69. -/
def placeholder : List Char := "\x7binput\x7d".toList

/-- The substitution step of `main` (`main.rs` line 69):
`prompt_template.replace(placeholder, input)`. -/
def substitute (template input : List Char) : List Char :=
  listReplace placeholder input template

/-- Model of `serde_json::Value`.  The number payload is abstracted to
`Int` (the program never reads a numeric field); objects are key/value
lists looked up by first match, adequate for parser output whose keys
are unique. -/
inductive JsonVal where
  | null
  | bool (b : Bool)
  | num (n : Int)
  | str (s : List Char)
  | arr (elems : List JsonVal)
  | obj (fields : List (List Char × JsonVal))

instance : Inhabited JsonVal := ⟨.null⟩

/-- First-match key lookup in a JSON object's field list, the semantics
of `serde_json`'s map lookup for parser-produced objects. -/
def objLookup (fields : List (List Char × JsonVal)) (key : List Char) :
    Option JsonVal :=
  match fields with
  | [] => none
  | (k, v) :: rest => if k = key then some v else objLookup rest key

/-- `serde_json::Value`'s `Index<&str>` (used by `v["choices"]`,
`choice["message"]`, `...["content"]`): field lookup on objects,
`Null` for a missing key or a non-object receiver; it never fails. -/
def jsonIndexStr (v : JsonVal) (key : List Char) : JsonVal :=
  match v with
  | .obj fields => (objLookup fields key).getD .null
  | _ => .null

/-- `serde_json::Value::get` at a numeric index (used by `.get(0)`):
`some` element for an in-bounds array index, `none` otherwise. -/
def jsonGetIdx (v : JsonVal) (i : Nat) : Option JsonVal :=
  match v with
  | .arr elems => elems.get? i
  | _ => none

/-- `serde_json::Value::as_str`: `some` exactly on JSON strings. -/
def asStr : JsonVal → Option (List Char)
  | .str s => some s
  | _ => none

/-- The distinct failure exits of `main.rs`, one constructor per `eyre!`
site or panic site, in source order. -/
inductive NerfError where
  | configMissing
  | keyTestSendFailed
  | keyTestBodyReadFailed
  | keyTestPrettyPanic
  | keyTestBadStatus (status : Nat)
  | fileReadFailed
  | sendFailed
  | apiError (status : Nat)
  | bodyReadFailed
  | parseJsonFailed
  | extractFailed
  | clipboardFailed
deriving DecidableEq

/-- The error-kind taxonomy of the specification (section 7). -/
inductive ErrorKind where
  | configMissing
  | fileReadError
  | networkError
  | apiError
  | parseError
  | clipboardError
deriving DecidableEq

/-- Classification of each concrete failure exit under the
specification's error-kind taxonomy. -/
def NerfError.specKind : NerfError → ErrorKind
  | .configMissing => .configMissing
  | .keyTestSendFailed => .networkError
  | .keyTestBodyReadFailed => .networkError
  | .keyTestPrettyPanic => .parseError
  | .keyTestBadStatus _ => .apiError
  | .fileReadFailed => .fileReadError
  | .sendFailed => .networkError
  | .apiError _ => .apiError
  | .bodyReadFailed => .networkError
  | .parseJsonFailed => .parseError
  | .extractFailed => .parseError
  | .clipboardFailed => .clipboardError

/-- `reqwest::StatusCode::is_success`: status in `200..=299`. -/
def statusIsSuccess (status : Nat) : Bool :=
  decide (200 ≤ status ∧ status < 300)

/-- Outcome of one HTTP exchange as seen by the program: either the
transport-level `send()` failed, or a response arrived with a status
code and a body.  The outer `Except` in `body` is the outcome of
`response.text()`; the inner one is the outcome of
`serde_json::from_str` on that text (an external library, modelled by
its result). -/
inductive TransportResult where
  | failed
  | response (status : Nat) (body : Except Unit (Except Unit JsonVal))

/-- Embedding of `extract_reworded_text` (`main.rs` lines 126-135),
taking the `serde_json::from_str` outcome of the response text:
a parse failure maps to the parse `eyre!` error; otherwise the value is
navigated with `v["choices"].get(0)` then
`choice["message"]["content"].as_str()`, and `none` at the end maps to
the extract `eyre!` error. -/
def extract_reworded_text (parsed : Except Unit JsonVal) :
    Except NerfError (List Char) :=
  match parsed with
  | .error _ => .error .parseJsonFailed
  | .ok j =>
    match (jsonGetIdx (jsonIndexStr j "choices".toList) 0).bind
        (fun choice =>
          asStr (jsonIndexStr (jsonIndexStr choice "message".toList)
            "content".toList)) with
    | some content => .ok content
    | none => .error .extractFailed

/-- Embedding of `send_to_chatgpt` (`main.rs` lines 89-124) after the
POST: transport failure maps to the send `eyre!` error; a non-2xx
status maps to the API `eyre!` error carrying the status; otherwise the
body text is read and handed to `extract_reworded_text`. -/
def send_to_chatgpt (r : TransportResult) : Except NerfError (List Char) :=
  match r with
  | .failed => .error .sendFailed
  | .response status body =>
    if statusIsSuccess status then
      match body with
      | .error _ => .error .bodyReadFailed
      | .ok parsed => extract_reworded_text parsed
    else .error (.apiError status)

/-- Embedding of `test_api_key` (`main.rs` lines 39-55) after the GET:
transport failure propagates the `reqwest` error; on a 2xx status the
body is read and pretty-printed, where `pretty_print_json(..).unwrap()`
panics on a non-JSON body; a non-2xx status maps to the key-test
`eyre!` error carrying the status. -/
def test_api_key (r : TransportResult) : Except NerfError Unit :=
  match r with
  | .failed => .error .keyTestSendFailed
  | .response status body =>
    if statusIsSuccess status then
      match body with
      | .error _ => .error .keyTestBodyReadFailed
      | .ok (.error _) => .error .keyTestPrettyPanic
      | .ok (.ok _) => .ok ()
    else .error (.keyTestBadStatus status)

/-- HTTP request method, as far as the program uses one. -/
inductive HttpMethod where
  | get
  | post
deriving DecidableEq

/-- An HTTP request the program issues: method and URL. -/
structure HttpRequest where
  method : HttpMethod
  url : List Char
deriving DecidableEq

/-- The GET issued by `test_api_key` (`main.rs` line 42). -/
def reqGetModels : HttpRequest :=
  ⟨.get, "https://api.openai.com/v1/models".toList⟩

/-- The POST issued by `send_to_chatgpt` (`main.rs` line 103). -/
def reqPostCompletions : HttpRequest :=
  ⟨.post, "https://api.openai.com/v1/chat/completions".toList⟩

/-- The program's effectful surroundings for one invocation:
the `CHATGPT_API_KEY` environment variable, the outcome of the GET in
`test_api_key`, the outcome of `fs::read_to_string` on the prompt file,
the outcome of the completions POST as a function of the request
prompt, and whether the `xclip` pipeline succeeds. -/
structure World where
  chatgptApiKey : Option (List Char)
  keyTestResponse : TransportResult
  promptFile : Except Unit (List Char)
  completions : List Char → TransportResult
  clipboardOk : Bool

/-- The data `main` hands to its output boundaries on success: the
filled prompt sent to the remote, the string printed by
`println!("{}", reworded)`, and the string piped to `xclip`. -/
structure MainOutcome where
  sentPrompt : List Char
  printed : List Char
  clipboardText : List Char

/-- Embedding of `main` (`main.rs` lines 57-81): force the lazy API key
(a missing variable panics before anything else), run `test_api_key`
(one GET), join the CLI words with single spaces, load the prompt
template, substitute the placeholder, run `send_to_chatgpt` (one POST),
then print and copy to the clipboard.  The first component is the trace
of HTTP requests issued, in order. -/
def run_main (w : World) (words : List (List Char)) :
    List HttpRequest × Except NerfError MainOutcome :=
  match w.chatgptApiKey with
  | none => ([], .error .configMissing)
  | some _ =>
    match test_api_key w.keyTestResponse with
    | .error e => ([reqGetModels], .error e)
    | .ok _ =>
      match w.promptFile with
      | .error _ => ([reqGetModels], .error .fileReadFailed)
      | .ok template =>
        match send_to_chatgpt
            (w.completions (substitute template (joinWith " ".toList words))) with
        | .error e => ([reqGetModels, reqPostCompletions], .error e)
        | .ok reworded =>
          if w.clipboardOk then
            ([reqGetModels, reqPostCompletions],
             .ok ⟨substitute template (joinWith " ".toList words),
                  reworded, reworded⟩)
          else
            ([reqGetModels, reqPostCompletions], .error .clipboardFailed)

/-- The mock response body of the specification's end-to-end example. -/
def mockResponseJson : JsonVal :=
  .obj [("choices".toList,
    .arr [.obj [("message".toList,
      .obj [("content".toList, .str "Fixed sentence.".toList)])]])]

/-- Mock surroundings for the end-to-end example: key present, key test
succeeds with a JSON body, template file readable, completions endpoint
returns the mock body with status 200, clipboard works. -/
def mockWorld : World :=
  ⟨some "k".toList,
   .response 200 (.ok (.ok (.obj []))),
   .ok "Rewrite: \x7binput\x7d".toList,
   fun _ => .response 200 (.ok (.ok mockResponseJson)),
   true⟩

/-- The CLI words of the specification's end-to-end example. -/
def exampleWords : List (List Char) :=
  ["fix".toList, "this".toList, "sentence".toList]

/-- Sample `message` object whose content has embedded whitespace. -/
def sampleMsg : List (List Char × JsonVal) :=
  [("content".toList, .str "Fixed  sentence. \n".toList)]

/-- Sample first choice wrapping `sampleMsg`. -/
def sampleChoice : List (List Char × JsonVal) :=
  [("message".toList, .obj sampleMsg)]

/-- Sample well-formed response body with one choice. -/
def sampleFields : List (List Char × JsonVal) :=
  [("choices".toList, JsonVal.arr [.obj sampleChoice])]

/-- Sample response body with an empty `choices` list. -/
def emptyChoicesFields : List (List Char × JsonVal) :=
  [("choices".toList, JsonVal.arr [])]

/-- Sample response body agreeing with `sampleFields` on `choices[0]`
but with an extra top-level field and an extra second choice. -/
def sampleFieldsVariant : List (List Char × JsonVal) :=
  [("id".toList, .num 7),
   ("choices".toList, JsonVal.arr [.obj sampleChoice, .null])]

/-- Surroundings in which the API-key environment variable is absent. -/
def noKeyWorld : World :=
  ⟨none, .failed, .error (), fun _ => .failed, false⟩

/-- `matchHead` decides "begins with": characterization as an append. -/
theorem matchHead_eq_true_iff (pat s : List Char) :
    matchHead pat s = true ↔ ∃ t, s = pat ++ t := by
  induction pat generalizing s with
  | nil => simp [matchHead]
  | cons p ps ih =>
    cases s with
    | nil => simp [matchHead]
    | cons c cs =>
      simp only [matchHead]
      by_cases h : p = c
      · subst h
        simp only [if_pos rfl, if_true, ih, List.cons_append, List.cons.injEq,
          true_and]
      · simp only [if_neg h, List.cons_append, List.cons.injEq]
        constructor
        · intro hf
          exact absurd hf (by simp)
        · rintro ⟨t, h1, _⟩
          exact absurd h1.symm h
/-- A head match survives appending on the right. -/
theorem matchHead_append_true (pat u r : List Char)
    (h : matchHead pat u = true) : matchHead pat (u ++ r) = true := by
  obtain ⟨t, rfl⟩ := (matchHead_eq_true_iff pat u).mp h
  exact (matchHead_eq_true_iff pat _).mpr ⟨t ++ r, by simp⟩

/-- `occursIn` decides "occurs as a contiguous run": characterization as
a two-sided append. -/
theorem occursIn_eq_true_iff (pat s : List Char) :
    occursIn pat s = true ↔ ∃ u v, s = u ++ pat ++ v := by
  induction s with
  | nil =>
    simp only [occursIn, List.isEmpty_iff]
    constructor
    · intro h
      exact ⟨[], [], by simp [h]⟩
    · rintro ⟨u, v, h⟩
      rcases List.append_eq_nil.mp (List.append_eq_nil.mp h.symm).1 with ⟨_, h2⟩
      exact h2
  | cons c cs ih =>
    simp only [occursIn, Bool.or_eq_true, ih, matchHead_eq_true_iff]
    constructor
    · rintro (⟨t, ht⟩ | ⟨u, v, hv⟩)
      · exact ⟨[], t, by simpa using ht⟩
      · exact ⟨c :: u, v, by simp [hv]⟩
    · rintro ⟨u, v, h⟩
      cases u with
      | nil => exact Or.inl ⟨v, by simpa using h⟩
      | cons a us =>
        injection h with _ h2
        exact Or.inr ⟨us, v, h2⟩

/-- The empty string contains no non-empty pattern. -/
theorem occursIn_nil_eq_false (pat : List Char) (hpat : pat ≠ []) :
    occursIn pat [] = false := by
  cases pat with
  | nil => exact absurd rfl hpat
  | cons p ps => rfl

/-- The first piece of a `joinWith` is its head piece, up to a tail. -/
theorem joinWith_cons_ex (sep p : List Char) (ps : List (List Char)) :
    ∃ r, joinWith sep (p :: ps) = p ++ r := by
  cases ps with
  | nil => exact ⟨[], by simp [joinWith]⟩
  | cons q qs => exact ⟨sep ++ joinWith sep (q :: qs), by simp [joinWith]⟩

/-- Structure of one pass of the replacement scanner: for a non-empty
pattern and enough fuel, the input splits into pieces free of the
pattern, joined by the pattern, and the output is the same pieces
joined by the replacement. -/
theorem replaceFuel_decomp (pat rep : List Char) (hpat : pat ≠ []) :
    ∀ (fuel : Nat) (s : List Char), s.length ≤ fuel →
    ∃ parts : List (List Char), parts ≠ [] ∧ s = joinWith pat parts ∧
      listReplaceFuel pat rep fuel s = joinWith rep parts ∧
      ∀ p ∈ parts, occursIn pat p = false := by
  intro fuel
  induction fuel with
  | zero =>
    intro s hs
    have hs0 : s = [] := List.eq_nil_of_length_eq_zero (Nat.le_zero.mp hs)
    subst hs0
    refine ⟨[[]], by simp, by simp [joinWith], ?_, ?_⟩
    · simp [listReplaceFuel, joinWith, hpat]
    · intro p hp
      simp only [List.mem_singleton] at hp
      subst hp
      exact occursIn_nil_eq_false pat hpat
  | succ fuel ih =>
    intro s hs
    cases s with
    | nil =>
      refine ⟨[[]], by simp, by simp [joinWith], ?_, ?_⟩
      · simp [listReplaceFuel, joinWith, hpat]
      · intro p hp
        simp only [List.mem_singleton] at hp
        subst hp
        exact occursIn_nil_eq_false pat hpat
    | cons c cs =>
      by_cases hm : matchHead pat (c :: cs) = true
      · obtain ⟨t, hct⟩ := (matchHead_eq_true_iff pat (c :: cs)).mp hm
        have hdrop : (c :: cs).drop pat.length = t := by
          rw [hct]
          exact List.drop_left pat t
        have hp1 : 1 ≤ pat.length := by
          cases pat with
          | nil => exact absurd rfl hpat
          | cons a as => simp
        have hlen : t.length ≤ fuel := by
          have hl := congrArg List.length hct
          simp only [List.length_cons, List.length_append] at hl
          simp only [List.length_cons] at hs
          omega
        obtain ⟨parts', hne', hjoin', hrep', hocc'⟩ := ih t hlen
        cases parts' with
        | nil => exact absurd rfl hne'
        | cons q qs =>
          refine ⟨[] :: q :: qs, by simp, ?_, ?_, ?_⟩
          · simp only [joinWith, List.nil_append]
            rw [← hjoin', ← hct]
          · have hstep : listReplaceFuel pat rep (fuel + 1) (c :: cs) =
                rep ++ listReplaceFuel pat rep fuel ((c :: cs).drop pat.length) := by
              simp [listReplaceFuel, hpat, hm]
            rw [hstep, hdrop, hrep']
            simp [joinWith]
          · intro p hp
            rcases List.mem_cons.mp hp with rfl | hp'
            · exact occursIn_nil_eq_false pat hpat
            · exact hocc' p hp'
      · have hm' : matchHead pat (c :: cs) = false :=
          Bool.eq_false_iff.mpr hm
        have hcs : cs.length ≤ fuel := by
          simp only [List.length_cons] at hs
          omega
        obtain ⟨parts', hne', hjoin', hrep', hocc'⟩ := ih cs hcs
        cases parts' with
        | nil => exact absurd rfl hne'
        | cons q qs =>
          refine ⟨(c :: q) :: qs, by simp, ?_, ?_, ?_⟩
          · cases qs with
            | nil =>
              simp only [joinWith] at hjoin' ⊢
              rw [hjoin']
            | cons q2 qs2 =>
              simp only [joinWith] at hjoin' ⊢
              rw [hjoin']
              simp
          · have hstep : listReplaceFuel pat rep (fuel + 1) (c :: cs) =
                c :: listReplaceFuel pat rep fuel cs := by
              simp [listReplaceFuel, hpat, hm]
            rw [hstep, hrep']
            cases qs with
            | nil => simp [joinWith]
            | cons q2 qs2 => simp [joinWith]
          · intro p hp
            rcases List.mem_cons.mp hp with rfl | hp'
            · have h1 : occursIn pat q = false := hocc' q (by simp)
              have h2 : matchHead pat (c :: q) = false := by
                by_contra hcon
                have htrue : matchHead pat (c :: q) = true :=
                  eq_true_of_ne_false (fun hf => hcon hf)
                obtain ⟨r, hr⟩ := joinWith_cons_ex pat q qs
                have hmm : matchHead pat ((c :: q) ++ r) = true :=
                  matchHead_append_true pat (c :: q) r htrue
                have hcqr : (c :: q) ++ r = c :: cs := by
                  rw [hjoin', hr]
                  rfl
                rw [hcqr] at hmm
                rw [hmm] at hm'
                exact Bool.noConfusion hm'
              simp [occursIn, h1, h2]
            · exact hocc' p (List.mem_cons_of_mem q hp')

/-- With no occurrence of the pattern, the replacement scanner copies its
input untouched. -/
theorem replaceFuel_no_occur (pat rep : List Char) :
    ∀ (fuel : Nat) (s : List Char), s.length ≤ fuel →
    occursIn pat s = false → listReplaceFuel pat rep fuel s = s := by
  intro fuel
  induction fuel with
  | zero =>
    intro s hs hno
    have hs0 : s = [] := List.eq_nil_of_length_eq_zero (Nat.le_zero.mp hs)
    subst hs0
    have hpat : pat ≠ [] := by
      intro h
      subst h
      simp [occursIn, List.isEmpty] at hno
    simp [listReplaceFuel, hpat]
  | succ fuel ih =>
    intro s hs hno
    cases s with
    | nil =>
      have hpat : pat ≠ [] := by
        intro h
        subst h
        simp [occursIn, List.isEmpty] at hno
      simp [listReplaceFuel, hpat]
    | cons c cs =>
      simp only [occursIn, Bool.or_eq_false_iff] at hno
      obtain ⟨hm, hrest⟩ := hno
      have hpat : pat ≠ [] := by
        intro h
        subst h
        simp [matchHead] at hm
      have hcs : cs.length ≤ fuel := by
        simp only [List.length_cons] at hs
        omega
      have := ih cs hcs hrest
      simp [listReplaceFuel, hpat, hm, this]

/-- C1: for every template containing the placeholder token and every
joined input string, `substitute` (the `template.replace` call of
`main.rs` line 69) replaces every occurrence of the placeholder with
the input, leaving all other characters unchanged: the template splits
as placeholder-free pieces joined by the placeholder, and the result is
exactly those pieces joined by the input string. -/
theorem substitute_replaces_every_occurrence (template input : List Char)
    (hocc : occursIn placeholder template = true) :
    ∃ parts : List (List Char), 2 ≤ parts.length ∧
      template = joinWith placeholder parts ∧
      substitute template input = joinWith input parts ∧
      ∀ p ∈ parts, occursIn placeholder p = false := by
  have hpat : placeholder ≠ [] := by decide
  obtain ⟨parts, hne, hj, hr, ho⟩ :=
    replaceFuel_decomp placeholder input hpat template.length template
      (le_refl _)
  refine ⟨parts, ?_, hj, hr, ho⟩
  cases parts with
  | nil => exact absurd rfl hne
  | cons q qs =>
    cases qs with
    | nil =>
      exfalso
      have hq : template = q := by simpa [joinWith] using hj
      have hfalse : occursIn placeholder q = false := ho q (by simp)
      rw [← hq] at hfalse
      rw [hocc] at hfalse
      exact Bool.noConfusion hfalse
    | cons q2 qs2 => simp

/-- Closed instance of C1 at the example template and input. -/
theorem substitute_replaces_every_occurrence_witness :
    occursIn placeholder "Rewrite: \x7binput\x7d".toList = true ∧
    ∃ parts : List (List Char), 2 ≤ parts.length ∧
      "Rewrite: \x7binput\x7d".toList = joinWith placeholder parts ∧
      substitute "Rewrite: \x7binput\x7d".toList "fix this sentence".toList =
        joinWith "fix this sentence".toList parts ∧
      ∀ p ∈ parts, occursIn placeholder p = false :=
  ⟨rfl, substitute_replaces_every_occurrence _ _ rfl⟩

/-- C6: for every template with no occurrence of the placeholder token,
the substitution step is the identity: the template goes to the remote
call unmodified. -/
theorem substitute_identity_without_placeholder (template input : List Char)
    (hno : occursIn placeholder template = false) :
    substitute template input = template :=
  replaceFuel_no_occur placeholder input template.length template
    (le_refl _) hno

/-- Closed instance of C6 at a placeholder-free template. -/
theorem substitute_identity_without_placeholder_witness :
    occursIn placeholder "Just rewrite it.".toList = false ∧
    substitute "Just rewrite it.".toList "fix this sentence".toList =
      "Just rewrite it.".toList :=
  ⟨rfl, substitute_identity_without_placeholder _ _ rfl⟩

/-- C2: for every well-formed response whose `choices[0].message.content`
is the JSON string `x`, `extract_reworded_text` returns exactly `x`,
character for character. -/
theorem extract_returns_first_choice_content
    (fields cf mf : List (List Char × JsonVal)) (rest : List JsonVal)
    (x : List Char)
    (h1 : objLookup fields "choices".toList = some (.arr (.obj cf :: rest)))
    (h2 : objLookup cf "message".toList = some (.obj mf))
    (h3 : objLookup mf "content".toList = some (.str x)) :
    extract_reworded_text (.ok (.obj fields)) = .ok x := by
  have e1 : jsonIndexStr (JsonVal.obj fields) "choices".toList
      = JsonVal.arr (JsonVal.obj cf :: rest) := by
    simp only [jsonIndexStr, h1, Option.getD_some]
  have e2 : jsonIndexStr (JsonVal.obj cf) "message".toList
      = JsonVal.obj mf := by
    simp only [jsonIndexStr, h2, Option.getD_some]
  have e3 : jsonIndexStr (JsonVal.obj mf) "content".toList
      = JsonVal.str x := by
    simp only [jsonIndexStr, h3, Option.getD_some]
  simp only [extract_reworded_text, e1, e2, e3, jsonGetIdx,
    List.get?_cons_zero, Option.some_bind, asStr]

/-- Closed instance of C2, with embedded whitespace in the content. -/
theorem extract_returns_first_choice_content_witness :
    objLookup sampleFields "choices".toList =
      some (.arr (JsonVal.obj sampleChoice :: [])) ∧
    extract_reworded_text (.ok (.obj sampleFields)) =
      .ok "Fixed  sentence. \n".toList :=
  ⟨rfl, extract_returns_first_choice_content sampleFields sampleChoice
    sampleMsg [] "Fixed  sentence. \n".toList rfl rfl rfl⟩

/-- C3: for every well-formed response whose `choices` field is the empty
list, extraction fails with the extract error, which the specification
classifies as a parse error; no default value is returned. -/
theorem extract_empty_choices_is_parse_error
    (fields : List (List Char × JsonVal))
    (h : objLookup fields "choices".toList = some (.arr [])) :
    extract_reworded_text (.ok (.obj fields)) =
      .error NerfError.extractFailed ∧
    NerfError.extractFailed.specKind = ErrorKind.parseError := by
  have e1 : jsonIndexStr (JsonVal.obj fields) "choices".toList
      = JsonVal.arr [] := by
    simp only [jsonIndexStr, h, Option.getD_some]
  refine ⟨?_, rfl⟩
  simp only [extract_reworded_text, e1, jsonGetIdx, List.get?_nil,
    Option.none_bind]

/-- Closed instance of C3 at a response with an empty choice list. -/
theorem extract_empty_choices_is_parse_error_witness :
    objLookup emptyChoicesFields "choices".toList = some (.arr []) ∧
    extract_reworded_text (.ok (.obj emptyChoicesFields)) =
      .error NerfError.extractFailed ∧
    NerfError.extractFailed.specKind = ErrorKind.parseError :=
  ⟨rfl, extract_empty_choices_is_parse_error emptyChoicesFields rfl⟩

/-- C7: extraction reads only the first element of `choices`: two
responses agreeing on `choices[0]` but differing in later choices or in
any other top-level field extract to the same result. -/
theorem extract_ignores_other_choices_and_fields
    (fields1 fields2 : List (List Char × JsonVal)) (c0 : JsonVal)
    (rest1 rest2 : List JsonVal)
    (h1 : objLookup fields1 "choices".toList = some (.arr (c0 :: rest1)))
    (h2 : objLookup fields2 "choices".toList = some (.arr (c0 :: rest2))) :
    extract_reworded_text (.ok (.obj fields1)) =
      extract_reworded_text (.ok (.obj fields2)) := by
  have e1 : jsonIndexStr (JsonVal.obj fields1) "choices".toList
      = JsonVal.arr (c0 :: rest1) := by
    simp only [jsonIndexStr, h1, Option.getD_some]
  have e2 : jsonIndexStr (JsonVal.obj fields2) "choices".toList
      = JsonVal.arr (c0 :: rest2) := by
    simp only [jsonIndexStr, h2, Option.getD_some]
  simp only [extract_reworded_text, e1, e2, jsonGetIdx,
    List.get?_cons_zero, Option.some_bind]

/-- Closed instance of C7: same first choice, different second choice and
an extra top-level field. -/
theorem extract_ignores_other_choices_and_fields_witness :
    extract_reworded_text (.ok (.obj sampleFields)) =
      extract_reworded_text (.ok (.obj sampleFieldsVariant)) :=
  extract_ignores_other_choices_and_fields sampleFields sampleFieldsVariant
    (JsonVal.obj sampleChoice) [] [.null] rfl rfl

/-- C10: extraction is total over every parse outcome and every shape of
JSON value: it always returns either a string or an error, and every
error it returns is of the specification's parse-error kind. -/
theorem extract_total_on_all_shapes (parsed : Except Unit JsonVal) :
    (∃ s, extract_reworded_text parsed = .ok s) ∨
    (∃ e, extract_reworded_text parsed = .error e ∧
      e.specKind = ErrorKind.parseError) := by
  cases parsed with
  | error u => exact Or.inr ⟨.parseJsonFailed, rfl, rfl⟩
  | ok j =>
    simp only [extract_reworded_text]
    cases hnav : (jsonGetIdx (jsonIndexStr j "choices".toList) 0).bind
        (fun choice =>
          asStr (jsonIndexStr (jsonIndexStr choice "message".toList)
            "content".toList)) with
    | none => exact Or.inr ⟨.extractFailed, rfl, rfl⟩
    | some s => exact Or.inl ⟨s, rfl⟩

/-- C4: the remote call of `send_to_chatgpt` fails with the API error
carrying the status for every non-2xx response, regardless of the body;
and it can only succeed on a response whose status is 2xx. -/
theorem send_non_success_is_api_error :
    (∀ (status : Nat) (body : Except Unit (Except Unit JsonVal)),
      statusIsSuccess status = false →
      send_to_chatgpt (.response status body) =
        .error (NerfError.apiError status)) ∧
    (∀ (r : TransportResult) (s : List Char),
      send_to_chatgpt r = .ok s →
      ∃ status body, r = .response status body ∧
        statusIsSuccess status = true) := by
  constructor
  · intro status body h
    simp [send_to_chatgpt, h]
  · intro r s h
    cases r with
    | failed => exact absurd h (by simp [send_to_chatgpt])
    | response status body =>
      refine ⟨status, body, rfl, ?_⟩
      by_contra hns
      have hfalse : statusIsSuccess status = false :=
        Bool.eq_false_iff.mpr hns
      simp [send_to_chatgpt, hfalse] at h

/-- Closed instance of C4 at status 401. -/
theorem send_non_success_is_api_error_witness :
    statusIsSuccess 401 = false ∧
    send_to_chatgpt (.response 401 (.error ())) =
      .error (NerfError.apiError 401) :=
  ⟨rfl, send_non_success_is_api_error.1 401 (.error ()) rfl⟩

/-- C5: the end-to-end example.  The words `fix this sentence` joined by
single spaces fill the template `Rewrite: ` plus placeholder to the
prompt `Rewrite: fix this sentence`; with the mock remote returning one
choice whose content is `Fixed sentence.`, the run succeeds, prints
`Fixed sentence.` and passes that exact string to the clipboard step. -/
theorem end_to_end_example :
    joinWith " ".toList exampleWords = "fix this sentence".toList ∧
    substitute "Rewrite: \x7binput\x7d".toList "fix this sentence".toList =
      "Rewrite: fix this sentence".toList ∧
    run_main mockWorld exampleWords =
      ([reqGetModels, reqPostCompletions],
       .ok ⟨"Rewrite: fix this sentence".toList,
            "Fixed sentence.".toList, "Fixed sentence.".toList⟩) :=
  ⟨rfl, rfl, rfl⟩

/-- C9: when the API-key environment variable is absent, the run aborts
at once with the config-missing failure (the `expect` on the lazy
static): no HTTP request is issued, nothing else runs, and the error is
the run's sole outcome. -/
theorem missing_api_key_config_error (w : World) (words : List (List Char))
    (h : w.chatgptApiKey = none) :
    run_main w words = ([], .error NerfError.configMissing) ∧
    NerfError.configMissing.specKind = ErrorKind.configMissing := by
  refine ⟨?_, rfl⟩
  obtain ⟨key, ktr, pf, comp, clip⟩ := w
  simp only at h
  subst h
  simp [run_main]

/-- Closed instance of C9 at a world without the key variable. -/
theorem missing_api_key_config_error_witness :
    noKeyWorld.chatgptApiKey = none ∧
    run_main noKeyWorld exampleWords =
      ([], .error NerfError.configMissing) :=
  ⟨rfl, (missing_api_key_config_error noKeyWorld exampleWords rfl).1⟩

/-- The single-request claim fails on the code: in the concrete
end-to-end run, `main` issues two HTTP requests, because
`test_api_key` first sends a GET to the models endpoint
(`main.rs` line 60 calls lines 39-55) before `send_to_chatgpt` sends
the POST to the completions endpoint. -/
theorem single_post_claim_counterexample :
    (run_main mockWorld exampleWords).1 =
      [reqGetModels, reqPostCompletions] ∧
    (run_main mockWorld exampleWords).1.length ≠ 1 ∧
    reqGetModels.method = HttpMethod.get :=
  ⟨rfl, by decide, rfl⟩

/-- C8 amended: every invocation issues at most two HTTP requests and in
a fixed order: first the GET to the models endpoint from the API-key
test, then a single POST to the completions endpoint.  Every run that
passes config (key present and key test passed) and template loading
issues exactly these two, whether or not the POST itself fails, and in
particular so does every successful run; the POST to the completions
endpoint is the only POST. -/
theorem requests_are_get_then_post (w : World) (words : List (List Char)) :
    ((run_main w words).1 = [] ∨ (run_main w words).1 = [reqGetModels] ∨
      (run_main w words).1 = [reqGetModels, reqPostCompletions]) ∧
    (∀ (k template : List Char) (u : Unit),
      w.chatgptApiKey = some k →
      test_api_key w.keyTestResponse = Except.ok u →
      w.promptFile = Except.ok template →
      (run_main w words).1 = [reqGetModels, reqPostCompletions]) ∧
    (∀ out, (run_main w words).2 = Except.ok out →
      (run_main w words).1 = [reqGetModels, reqPostCompletions]) := by
  have hfull : ∀ (k template : List Char) (u : Unit),
      w.chatgptApiKey = some k →
      test_api_key w.keyTestResponse = Except.ok u →
      w.promptFile = Except.ok template →
      (run_main w words).1 = [reqGetModels, reqPostCompletions] := by
    intro k template u hk ht hp
    simp only [run_main, hk, ht, hp]
    split
    · rfl
    · split <;> rfl
  refine ⟨?_, hfull, ?_⟩
  · obtain ⟨key, ktr, pf, comp, clip⟩ := w
    cases key with
    | none => exact Or.inl (by simp [run_main])
    | some k =>
      cases ht : test_api_key ktr with
      | error e => exact Or.inr (Or.inl (by simp [run_main, ht]))
      | ok u =>
        cases pf with
        | error u2 => exact Or.inr (Or.inl (by simp [run_main, ht]))
        | ok template =>
          exact Or.inr (Or.inr (hfull k template u rfl ht rfl))
  · intro out h
    obtain ⟨key, ktr, pf, comp, clip⟩ := w
    cases key with
    | none => simp [run_main] at h
    | some k =>
      cases ht : test_api_key ktr with
      | error e => simp [run_main, ht] at h
      | ok u =>
        cases pf with
        | error u2 => simp [run_main, ht] at h
        | ok template => exact hfull k template u rfl ht rfl

/-- Closed instance of the amended C8: a run that passes config and
template loading issues exactly the GET then the POST. -/
theorem requests_are_get_then_post_witness :
    (run_main mockWorld exampleWords).1 =
      [reqGetModels, reqPostCompletions] :=
  (requests_are_get_then_post mockWorld exampleWords).2.1
    "k".toList "Rewrite: \x7binput\x7d".toList () rfl rfl rfl
